import Mathlib

/-!
# Offline synchronization engine: shallow embedding

A shallow embedding of the offline synchronization subsystem of the
teachLink mobile client, together with proofs of the spec's testable
properties.  The embedded functions mirror, operation by operation, the
source in `services/offlineStorage` (the sync queue and record store),
`services` sync driver (`SyncService`), and the `useOfflineData` hook
(the offline data cache).  Asynchronous effects are modelled by explicit
state passing: each embedded function takes the relevant persisted state
(the queue, the per-type record dictionary) and returns the state the
source would persist; failure of the underlying key-value store is an
explicit `Except`/`Option` parameter.
-/

namespace TeachLink

/-- Priorities of sync operations (`'high' | 'medium' | 'low'`). -/
inductive Priority where
  | high
  | medium
  | low
deriving DecidableEq, Repr

/-- The rank used by the enqueue comparator:
`const priorityOrder = { high: 0, medium: 1, low: 2 }`. -/
def priorityOrder : Priority → Nat
  | .high => 0
  | .medium => 1
  | .low => 2

/-- `SyncOperationType = 'CREATE' | 'UPDATE' | 'DELETE' | 'READ'`. -/
inductive SyncOperationType where
  | CREATE
  | UPDATE
  | DELETE
  | READ
deriving DecidableEq, Repr

/-- The `SyncOperation` interface.  The payload (`data?: any`) is kept
abstract in the type parameter `δ`. -/
structure SyncOperation (δ : Type) where
  id : String
  type : SyncOperationType
  endpoint : String
  data : Option δ
  timestamp : Nat
  retries : Nat
  maxRetries : Nat
  priority : Priority
deriving DecidableEq

/-- `SyncOperationInput = Omit<SyncOperation, 'id'|'timestamp'|'retries'|'maxRetries'>`. -/
structure SyncOperationInput (δ : Type) where
  type : SyncOperationType
  endpoint : String
  data : Option δ
  priority : Priority
deriving DecidableEq

/-- `private readonly MAX_RETRIES = 3` in `OfflineStorage`. -/
def MAX_RETRIES : Nat := 3

/-- The comparator passed to `queue.sort` in `addToSyncQueue`, read as the
"a sorts no later than b" Boolean relation of the (stable) JS sort:
`priorityOrder[a.priority] - priorityOrder[b.priority]` when the ranks
differ, `a.timestamp - b.timestamp` otherwise. -/
def syncOpLe {δ : Type} (a b : SyncOperation δ) : Bool :=
  decide (priorityOrder a.priority < priorityOrder b.priority ∨
    (priorityOrder a.priority = priorityOrder b.priority ∧ a.timestamp ≤ b.timestamp))

/-- The sync operation built by `addToSyncQueue`: generated id, enqueue
timestamp, `retries: 0`, `maxRetries: this.MAX_RETRIES`. -/
def mkSyncOperation {δ : Type} (input : SyncOperationInput δ) (newId : String)
    (now : Nat) : SyncOperation δ :=
  { id := newId
    type := input.type
    endpoint := input.endpoint
    data := input.data
    timestamp := now
    retries := 0
    maxRetries := MAX_RETRIES
    priority := input.priority }

/-- `OfflineStorage.addToSyncQueue`: push the new operation, then sort the
whole queue by priority rank and timestamp (JS `Array.prototype.sort` is
stable; it is modelled by the stable `List.mergeSort`), and persist the
result.  The generated id and `Date.now()` are explicit parameters. -/
def addToSyncQueue {δ : Type} (queue : List (SyncOperation δ))
    (input : SyncOperationInput δ) (newId : String) (now : Nat) :
    List (SyncOperation δ) :=
  (queue ++ [mkSyncOperation input newId now]).mergeSort syncOpLe

/-- `OfflineStorage.removeFromSyncQueue`: `queue.filter(op => op.id !== operationId)`. -/
def removeFromSyncQueue {δ : Type} (queue : List (SyncOperation δ))
    (operationId : String) : List (SyncOperation δ) :=
  queue.filter (fun op => op.id != operationId)

/-- `OfflineStorage.incrementRetryCount`: `queue.find(op => op.id === operationId)`
and, when found, mutate that (first matching) element's `retries` in place;
when absent nothing changes. -/
def incrementRetryCount {δ : Type} :
    List (SyncOperation δ) → String → List (SyncOperation δ)
  | [], _ => []
  | op :: rest, operationId =>
    if op.id = operationId then { op with retries := op.retries + 1 } :: rest
    else op :: incrementRetryCount rest operationId

/-- `OfflineStorage.getFailedOperations`: `queue.filter(op => op.retries >= op.maxRetries)`. -/
def getFailedOperations {δ : Type} (queue : List (SyncOperation δ)) :
    List (SyncOperation δ) :=
  queue.filter (fun op => op.maxRetries ≤ op.retries)

/-- One persisted-queue mutation: the three operations that write the
`syncQueue` blob (besides `clearSyncQueue`, which resets it to `[]`). -/
inductive QueueStep (δ : Type) where
  | enqueue (input : SyncOperationInput δ) (newId : String) (now : Nat)
  | remove (operationId : String)
  | incrRetry (operationId : String)

/-- Apply one queue mutation to the persisted queue. -/
def applyQueueStep {δ : Type} (q : List (SyncOperation δ)) :
    QueueStep δ → List (SyncOperation δ)
  | .enqueue input newId now => addToSyncQueue q input newId now
  | .remove operationId => removeFromSyncQueue q operationId
  | .incrRetry operationId => incrementRetryCount q operationId

/-- The persisted queue after a sequence of mutations starting from the
empty queue (what `getSyncQueue` then returns). -/
def runQueue {δ : Type} (steps : List (QueueStep δ)) : List (SyncOperation δ) :=
  steps.foldl applyQueueStep []

/-- The ordering the spec asks of the persisted queue: strictly smaller
priority rank first, and within equal rank, nondecreasing enqueue timestamp. -/
def syncOpKeyLe {δ : Type} (a b : SyncOperation δ) : Prop :=
  priorityOrder a.priority < priorityOrder b.priority ∨
    (priorityOrder a.priority = priorityOrder b.priority ∧ a.timestamp ≤ b.timestamp)

theorem syncOpLe_eq_true_iff {δ : Type} (a b : SyncOperation δ) :
    syncOpLe a b = true ↔ syncOpKeyLe a b := by
  simp [syncOpLe, syncOpKeyLe]

theorem syncOpLe_trans {δ : Type} (a b c : SyncOperation δ)
    (hab : syncOpLe a b = true) (hbc : syncOpLe b c = true) :
    syncOpLe a c = true := by
  simp only [syncOpLe, decide_eq_true_eq] at *
  omega

theorem syncOpLe_total {δ : Type} (a b : SyncOperation δ) :
    (syncOpLe a b || syncOpLe b a) = true := by
  simp only [syncOpLe, Bool.or_eq_true, decide_eq_true_eq]
  omega

theorem sorted_addToSyncQueue {δ : Type} (queue : List (SyncOperation δ))
    (input : SyncOperationInput δ) (newId : String) (now : Nat) :
    List.Sorted syncOpKeyLe (addToSyncQueue queue input newId now) := by
  have h := List.sorted_mergeSort syncOpLe_trans syncOpLe_total
    (queue ++ [mkSyncOperation input newId now])
  exact h.imp (fun hab => (syncOpLe_eq_true_iff _ _).mp hab)

/-- Everything of a sync operation except its mutable `retries` counter. -/
def syncOpFrozen {δ : Type} (op : SyncOperation δ) :
    String × SyncOperationType × String × Option δ × Nat × Nat × Priority :=
  (op.id, op.type, op.endpoint, op.data, op.timestamp, op.maxRetries, op.priority)

theorem incrementRetryCount_map_frozen {δ : Type}
    (q : List (SyncOperation δ)) (operationId : String) :
    (incrementRetryCount q operationId).map syncOpFrozen = q.map syncOpFrozen := by
  induction q with
  | nil => rfl
  | cons op rest ih =>
    by_cases h : op.id = operationId
    · simp [incrementRetryCount, h, syncOpFrozen]
    · simp [incrementRetryCount, h, ih]

theorem sorted_incrementRetryCount {δ : Type}
    {q : List (SyncOperation δ)} (operationId : String)
    (hq : List.Sorted syncOpKeyLe q) :
    List.Sorted syncOpKeyLe (incrementRetryCount q operationId) := by
  have key : ∀ a b : SyncOperation δ,
      syncOpKeyLe a b ↔
        (fun x y :
            String × SyncOperationType × String × Option δ × Nat × Nat × Priority =>
          priorityOrder x.2.2.2.2.2.2 < priorityOrder y.2.2.2.2.2.2 ∨
            (priorityOrder x.2.2.2.2.2.2 = priorityOrder y.2.2.2.2.2.2 ∧
              x.2.2.2.2.1 ≤ y.2.2.2.2.1)) (syncOpFrozen a) (syncOpFrozen b) := by
    intro a b
    simp [syncOpKeyLe, syncOpFrozen]
  rw [List.Sorted] at hq ⊢
  rw [List.pairwise_iff_forall_sublist] at hq ⊢
  intro a b hsub
  have hsub' : [syncOpFrozen a, syncOpFrozen b].Sublist
      ((incrementRetryCount q operationId).map syncOpFrozen) := by
    simpa using hsub.map syncOpFrozen
  rw [incrementRetryCount_map_frozen] at hsub'
  rw [key]
  obtain ⟨l, hl, hmap⟩ := List.sublist_map_iff.mp hsub'
  cases l with
  | nil => simp at hmap
  | cons a' t =>
    cases t with
    | nil => simp at hmap
    | cons b' t2 =>
      cases t2 with
      | cons c t3 => simp at hmap
      | nil =>
        simp only [List.map_cons, List.map_nil, List.cons.injEq, and_true] at hmap
        obtain ⟨ha, hb⟩ := hmap
        rw [ha, hb]
        have hthis := hq (a := a') (b := b') hl
        rw [key] at hthis
        exact hthis

theorem sorted_removeFromSyncQueue {δ : Type}
    {q : List (SyncOperation δ)} (operationId : String)
    (hq : List.Sorted syncOpKeyLe q) :
    List.Sorted syncOpKeyLe (removeFromSyncQueue q operationId) :=
  List.Pairwise.sublist (List.filter_sublist q) hq

theorem sorted_applyQueueStep {δ : Type}
    {q : List (SyncOperation δ)} (s : QueueStep δ)
    (hq : List.Sorted syncOpKeyLe q) :
    List.Sorted syncOpKeyLe (applyQueueStep q s) := by
  cases s with
  | enqueue input newId now => exact sorted_addToSyncQueue q input newId now
  | remove operationId => exact sorted_removeFromSyncQueue operationId hq
  | incrRetry operationId => exact sorted_incrementRetryCount operationId hq

theorem sorted_runQueue {δ : Type} (steps : List (QueueStep δ)) :
    List.Sorted syncOpKeyLe (runQueue steps) := by
  have general : ∀ (steps : List (QueueStep δ)) (q : List (SyncOperation δ)),
      List.Sorted syncOpKeyLe q →
      List.Sorted syncOpKeyLe (steps.foldl applyQueueStep q) := by
    intro steps
    induction steps with
    | nil => intro q hq; exact hq
    | cons s rest ih =>
      intro q hq
      exact ih _ (sorted_applyQueueStep s hq)
  exact general steps [] List.sorted_nil

/-- C1: starting from the empty queue, every sequence of enqueue, remove and
retry-increment operations leaves the persisted sync queue sorted by priority
rank (high before medium before low) and, within equal rank, by ascending
enqueue timestamp.  Enqueue appends the new operation and re-sorts (the result
is a permutation of the old queue plus the new operation); removal keeps a
sublist of the queue (relative order of remaining items preserved, no re-sort);
retry-increment changes only the first matching operation's `retries` field,
leaving the sequence of all other fields — hence the relative order — intact. -/
theorem C1_queue_ordering {δ : Type} :
    (∀ steps : List (QueueStep δ), List.Sorted syncOpKeyLe (runQueue steps))
  ∧ (∀ (q : List (SyncOperation δ)) (input : SyncOperationInput δ)
      (newId : String) (now : Nat),
      (addToSyncQueue q input newId now).Perm
        (q ++ [mkSyncOperation input newId now]))
  ∧ (∀ (q : List (SyncOperation δ)) (operationId : String),
      (removeFromSyncQueue q operationId).Sublist q)
  ∧ (∀ (q : List (SyncOperation δ)) (operationId : String),
      (incrementRetryCount q operationId).map syncOpFrozen = q.map syncOpFrozen) :=
  ⟨sorted_runQueue,
   fun _ _ _ _ => List.mergeSort_perm _ syncOpLe,
   fun q _ => List.filter_sublist q,
   incrementRetryCount_map_frozen⟩

/-! ## Sync driver: retry scheduling and exponential backoff -/

/-- `SyncConfig` with the constructor defaults
(`maxConcurrentSyncs: 3, retryDelay: 5000, syncInterval: 30000, batchSize: 10`). -/
structure SyncConfig where
  maxConcurrentSyncs : Nat := 3
  retryDelay : Nat := 5000
  syncInterval : Nat := 30000
  batchSize : Nat := 10
deriving DecidableEq

/-- `SyncService.calculateRetryDelay`: `this.config.retryDelay * Math.pow(2, retryCount)`. -/
def calculateRetryDelay (config : SyncConfig) (retryCount : Nat) : Nat :=
  config.retryDelay * 2 ^ retryCount

/-- The effect of `SyncService.processOperation`'s catch block on the
persisted queue, given the in-memory snapshot `op` of the operation: when
`op.retries < op.maxRetries`, increment the stored retry counter and
schedule a retry after `calculateRetryDelay(op.retries)` milliseconds
(returned as `some delay`); otherwise the permanent-failure path runs,
which changes nothing and schedules nothing (`none`).  The failure path
never removes the operation from the queue. -/
def processOperationFailure {δ : Type} (config : SyncConfig)
    (q : List (SyncOperation δ)) (op : SyncOperation δ) :
    List (SyncOperation δ) × Option Nat :=
  if op.retries < op.maxRetries then
    (incrementRetryCount q op.id, some (calculateRetryDelay config op.retries))
  else
    (q, none)

/-- One failed dispatch through `SyncService.retryOperation`: re-read the
queue, find the operation by id (absence is a no-op), then run
`processOperation` on the found snapshot and fail, taking the catch path
of `processOperationFailure`. -/
def retryFail {δ : Type} (config : SyncConfig) (q : List (SyncOperation δ))
    (operationId : String) : List (SyncOperation δ) × Option Nat :=
  match q.find? (fun op => op.id == operationId) with
  | none => (q, none)
  | some op => processOperationFailure config q op

/-- The persisted queue after `n` consecutive failed dispatches of the
operation `operationId`. -/
def failRun {δ : Type} (config : SyncConfig) (operationId : String) :
    Nat → List (SyncOperation δ) → List (SyncOperation δ)
  | 0, q => q
  | n + 1, q => failRun config operationId n (retryFail config q operationId).1

theorem failRun_singleton {δ : Type} (config : SyncConfig)
    (op : SyncOperation δ) (n : Nat) (hn : op.retries + n ≤ op.maxRetries) :
    failRun config op.id n [op] = [{ op with retries := op.retries + n }] := by
  induction n generalizing op with
  | zero => simp [failRun]
  | succ m ih =>
    have hlt : op.retries < op.maxRetries := by omega
    have hstep : (retryFail config [op] op.id).1 = [{ op with retries := op.retries + 1 }] := by
      simp [retryFail, List.find?, processOperationFailure, hlt, incrementRetryCount]
    rw [failRun, hstep]
    have := ih { op with retries := op.retries + 1 } (by simpa using by omega)
    simpa [Nat.add_comm, Nat.add_assoc, Nat.add_left_comm] using this

/-- C3: an operation enqueued with `maxRetries = 3` (and `retries = 0`) whose
every dispatch fails: after 3 failures its stored `retries` equals 3 and it is
in `getFailedOperations()`; the next (4th) failure neither increments
`retries` past 3 nor schedules another retry (`retryFail` returns the queue
unchanged with no delay), and the operation is still in the queue after any
number of further failures — the failure path never removes it. -/
theorem C3_retry_ceiling {δ : Type} (config : SyncConfig)
    (op : SyncOperation δ) (h0 : op.retries = 0) (h3 : op.maxRetries = 3) :
    failRun config op.id 3 [op] = [{ op with retries := 3 }]
  ∧ getFailedOperations (failRun config op.id 3 [op]) = [{ op with retries := 3 }]
  ∧ retryFail config (failRun config op.id 3 [op]) op.id
      = (failRun config op.id 3 [op], none)
  ∧ ∀ n : Nat, { op with retries := 3 } ∈ failRun config op.id (3 + n) [op] := by
  have hrun : failRun config op.id 3 [op] = [{ op with retries := 3 }] := by
    have := failRun_singleton config op 3 (by omega)
    simpa [h0] using this
  have hfailed : getFailedOperations (failRun config op.id 3 [op])
      = [{ op with retries := 3 }] := by
    rw [hrun]
    simp [getFailedOperations, h3]
  have hceil : retryFail config (failRun config op.id 3 [op]) op.id
      = (failRun config op.id 3 [op], none) := by
    rw [hrun]
    simp [retryFail, List.find?, processOperationFailure, h3]
  refine ⟨hrun, hfailed, hceil, ?_⟩
  have hsplit : ∀ (k j : Nat) (q : List (SyncOperation δ)),
      failRun config op.id (k + j) q
        = failRun config op.id j (failRun config op.id k q) := by
    intro k
    induction k with
    | zero => intro j q; simp [failRun]
    | succ i ihk =>
      intro j q
      have harith : i + 1 + j = (i + j) + 1 := by omega
      rw [harith, failRun, failRun, ihk]
  have hfix : ∀ n : Nat,
      failRun config op.id n [{ op with retries := 3 }] = [{ op with retries := 3 }] := by
    intro n
    induction n with
    | zero => rfl
    | succ m ih =>
      have hstep : (retryFail config [{ op with retries := 3 }] op.id).1
          = [{ op with retries := 3 }] := by
        simp [retryFail, List.find?, processOperationFailure, h3]
      rw [failRun, hstep, ih]
  intro n
  rw [hsplit, hrun, hfix]
  exact List.mem_singleton.mpr rfl

/-- The `SyncService` configuration with every field at its default. -/
def defaultSyncConfig : SyncConfig := {}

/-- A concrete sync operation used to instantiate the retry theorems. -/
def sampleOp : SyncOperation Nat :=
  { id := "op_1700000000000_abc123xyz"
    type := .CREATE
    endpoint := "/courses/42"
    data := some 7
    timestamp := 100
    retries := 0
    maxRetries := 3
    priority := .high }

theorem C3_retry_ceiling_witness :
    (sampleOp.retries = 0 ∧ sampleOp.maxRetries = 3) ∧
    failRun defaultSyncConfig sampleOp.id 3 [sampleOp]
      = [{ sampleOp with retries := 3 }] ∧
    getFailedOperations (failRun defaultSyncConfig sampleOp.id 3 [sampleOp])
      = [{ sampleOp with retries := 3 }] ∧
    retryFail defaultSyncConfig (failRun defaultSyncConfig sampleOp.id 3 [sampleOp])
        sampleOp.id
      = (failRun defaultSyncConfig sampleOp.id 3 [sampleOp], none) :=
  ⟨⟨rfl, rfl⟩,
   (C3_retry_ceiling defaultSyncConfig sampleOp rfl rfl).1,
   (C3_retry_ceiling defaultSyncConfig sampleOp rfl rfl).2.1,
   (C3_retry_ceiling defaultSyncConfig sampleOp rfl rfl).2.2.1⟩

/-- C4: when a dispatch of an operation whose current (stored) retry count is
`op.retries = k < maxRetries` fails, the scheduled retry delay is exactly
`config.retryDelay * 2 ^ k` milliseconds; with the default base of 5000 ms the
successive delays are 5000, 10000 and 20000 for k = 0, 1, 2. -/
theorem C4_backoff_delay {δ : Type} (config : SyncConfig)
    (q : List (SyncOperation δ)) (operationId : String) (op : SyncOperation δ)
    (hfind : q.find? (fun o => o.id == operationId) = some op)
    (hlt : op.retries < op.maxRetries) :
    (retryFail config q operationId).2 = some (config.retryDelay * 2 ^ op.retries)
  ∧ calculateRetryDelay defaultSyncConfig 0 = 5000
  ∧ calculateRetryDelay defaultSyncConfig 1 = 10000
  ∧ calculateRetryDelay defaultSyncConfig 2 = 20000 := by
  refine ⟨?_, rfl, rfl, rfl⟩
  simp [retryFail, hfind, processOperationFailure, hlt, calculateRetryDelay]

/-! ## Sync driver: batch partitioning -/

/-- `SyncService.createBatches`: the for-loop `for (i = 0; i < length; i += batchSize)
batches.push(array.slice(i, i + batchSize))`, i.e. consecutive chunks of
`batchSize` elements in queue order.  (For `batchSize = 0` the source loop would
never terminate; the model returns `[]` there, and every claim instantiates a
positive batch size.) -/
def createBatches {α : Type} (batchSize : Nat) (array : List α) : List (List α) :=
  if _h : array.length = 0 ∨ batchSize = 0 then []
  else array.take batchSize :: createBatches batchSize (array.drop batchSize)
termination_by array.length
decreasing_by
  simp only [List.length_drop]
  rw [not_or] at _h
  omega

theorem createBatches_nil {α : Type} (batchSize : Nat) :
    createBatches (α := α) batchSize [] = [] := by
  rw [createBatches]
  exact dif_pos (Or.inl rfl)

theorem createBatches_cons {α : Type} {batchSize : Nat} {array : List α}
    (hbs : batchSize ≠ 0) (hl : array ≠ []) :
    createBatches batchSize array
      = array.take batchSize :: createBatches batchSize (array.drop batchSize) := by
  rw [createBatches]
  rw [dif_neg]
  push_neg
  exact ⟨by simpa [List.length_eq_zero] using hl, hbs⟩

/-- The operations that `SyncService.processBatch` actually dispatches from a
batch: `operations.slice(0, this.config.maxConcurrentSyncs)` (then raced with
`Promise.all`); the rest of the batch is not dispatched. -/
def processBatchDispatched {δ : Type} (config : SyncConfig)
    (operations : List (SyncOperation δ)) : List (SyncOperation δ) :=
  operations.take config.maxConcurrentSyncs

/-- All operations dispatched during one sync pass over `queue`:
`processBatch` is awaited for each batch of `createBatches` in order. -/
def dispatchedInPass {δ : Type} (config : SyncConfig)
    (queue : List (SyncOperation δ)) : List (SyncOperation δ) :=
  ((createBatches config.batchSize queue).map (processBatchDispatched config)).flatten

theorem range_filterMap_getElem {α : Type} (l : List α) (k : Nat) :
    (List.range k).filterMap (fun i => l[i]?) = l.take k := by
  induction k with
  | zero => simp
  | succ n ih =>
    rw [List.range_succ, List.filterMap_append, ih, List.take_succ]
    cases h : l[n]? <;> simp [List.filterMap_cons, h]

theorem range_filter_lt (m n : Nat) :
    (List.range n).filter (fun i => decide (i < m)) = List.range (min m n) := by
  induction n with
  | zero => simp
  | succ n ih =>
    rw [List.range_succ, List.filter_append, ih]
    by_cases h : n < m
    · have hmin : min m n = n := by omega
      have hmin' : min m (n + 1) = n + 1 := by omega
      simp [h, hmin, hmin', List.range_succ]
    · have hmin : min m n = m := by omega
      have hmin' : min m (n + 1) = m := by omega
      simp [h, hmin, hmin']

theorem createBatches_flatten {α : Type} {batchSize : Nat} (hbs : 0 < batchSize)
    (l : List α) : (createBatches batchSize l).flatten = l := by
  generalize hn : l.length = n
  induction n using Nat.strong_induction_on generalizing l with
  | _ n ih =>
    by_cases hl : l = []
    · subst hl
      rw [createBatches_nil]
      rfl
    · rw [createBatches_cons (by omega) hl]
      have hlen : (l.drop batchSize).length < n := by
        rw [List.length_drop]
        have hpos : 0 < l.length := List.length_pos.mpr hl
        omega
      rw [List.flatten_cons, ih _ hlen _ rfl, List.take_append_drop]

theorem createBatches_length_le {α : Type} {batchSize : Nat} (hbs : 0 < batchSize)
    (l : List α) : ∀ b ∈ createBatches batchSize l, b.length ≤ batchSize := by
  generalize hn : l.length = n
  induction n using Nat.strong_induction_on generalizing l with
  | _ n ih =>
    by_cases hl : l = []
    · subst hl
      rw [createBatches_nil]
      simp
    · rw [createBatches_cons (by omega) hl]
      intro b hb
      rcases List.mem_cons.mp hb with hb | hb
      · subst hb
        simp [List.length_take]
      · have hlen : (l.drop batchSize).length < n := by
          rw [List.length_drop]
          have hpos : 0 < l.length := List.length_pos.mpr hl
          omega
        exact ih _ hlen _ rfl b hb

theorem flatten_take_eq_filter_range {α : Type} {batchSize : Nat}
    (hbs : 0 < batchSize) (mcs : Nat) (l : List α) :
    ((createBatches batchSize l).map (fun b => b.take mcs)).flatten
      = ((List.range l.length).filter
          (fun i => decide (i % batchSize < mcs))).filterMap (fun i => l[i]?) := by
  generalize hn : l.length = n
  induction n using Nat.strong_induction_on generalizing l with
  | _ n ih =>
    by_cases hl : l = []
    · subst hl
      rw [createBatches_nil]
      simp at hn
      subst hn
      simp
    · rw [createBatches_cons (by omega) hl, List.map_cons, List.flatten_cons]
      have hpos : 0 < l.length := List.length_pos.mpr hl
      by_cases hsmall : l.length ≤ batchSize
      · -- single batch: the whole queue fits in one chunk
        have hdrop : l.drop batchSize = [] := List.drop_eq_nil_of_le hsmall
        rw [hdrop, createBatches_nil]
        simp only [List.map_nil, List.flatten_nil, List.append_nil]
        have hfc : (List.range n).filter (fun i => decide (i % batchSize < mcs))
            = (List.range n).filter (fun i => decide (i < mcs)) := by
          apply List.filter_congr
          intro i hi
          have hilt : i < n := List.mem_range.mp hi
          rw [Nat.mod_eq_of_lt (by omega)]
        rw [hfc, range_filter_lt, range_filterMap_getElem, List.take_take]
        exact List.take_eq_take.mpr (by omega)
      · -- more than one batch
        push_neg at hsmall
        have hrange : List.range n
            = List.range batchSize
              ++ (List.range (n - batchSize)).map (fun x => batchSize + x) := by
          rw [← List.range_add]
          congr 1
          omega
        rw [hrange, List.filter_append, List.filterMap_append]
        have hpart1 : ((List.range batchSize).filter
              (fun i => decide (i % batchSize < mcs))).filterMap (fun i => l[i]?)
            = (l.take batchSize).take mcs := by
          have hfc : (List.range batchSize).filter
                (fun i => decide (i % batchSize < mcs))
              = (List.range batchSize).filter (fun i => decide (i < mcs)) := by
            apply List.filter_congr
            intro i hi
            have hilt : i < batchSize := List.mem_range.mp hi
            rw [Nat.mod_eq_of_lt hilt]
          rw [hfc, range_filter_lt, range_filterMap_getElem, List.take_take]
        have hpart2 : (((List.range (n - batchSize)).map
                (fun x => batchSize + x)).filter
              (fun i => decide (i % batchSize < mcs))).filterMap (fun i => l[i]?)
            = ((createBatches batchSize (l.drop batchSize)).map
                (fun b => b.take mcs)).flatten := by
          rw [List.filter_map, List.filterMap_map]
          have hfc : (List.range (n - batchSize)).filter
                ((fun i => decide (i % batchSize < mcs)) ∘ (fun x => batchSize + x))
              = (List.range (n - batchSize)).filter
                (fun i => decide (i % batchSize < mcs)) := by
            apply List.filter_congr
            intro i _
            simp [Function.comp, Nat.add_mod_left]
          rw [hfc]
          have hfun : ((fun i => l[i]?) ∘ fun x => batchSize + x)
              = fun i => (l.drop batchSize)[i]? := by
            funext i
            simp [List.getElem?_drop]
          rw [hfun]
          have hlen : (l.drop batchSize).length < n := by
            rw [List.length_drop]
            omega
          have hlen' : (l.drop batchSize).length = n - batchSize := by
            rw [List.length_drop, hn]
          rw [ih _ hlen _ rfl, hlen']
        rw [hpart1, hpart2]

/-- C8: a sync pass chunks the loaded queue into consecutive batches of
`config.batchSize` in queue order (their concatenation is the queue and every
batch has at most `batchSize` elements) and processes them sequentially;
the operations actually dispatched during the pass are exactly those whose
queue position `i` satisfies `i % batchSize < maxConcurrentSyncs` — i.e. only
the first `maxConcurrentSyncs` operations of each batch, in order; operations
at later positions inside a batch are not dispatched during that pass. -/
theorem C8_batch_dispatch {δ : Type} (config : SyncConfig)
    (hbs : 0 < config.batchSize) (queue : List (SyncOperation δ)) :
    (createBatches config.batchSize queue).flatten = queue
  ∧ (∀ b ∈ createBatches config.batchSize queue, b.length ≤ config.batchSize)
  ∧ dispatchedInPass config queue
      = ((List.range queue.length).filter
          (fun i => decide (i % config.batchSize < config.maxConcurrentSyncs))).filterMap
          (fun i => queue[i]?) :=
  ⟨createBatches_flatten hbs queue,
   createBatches_length_le hbs queue,
   flatten_take_eq_filter_range hbs config.maxConcurrentSyncs queue⟩

/-- A queue of twelve distinct read operations, used to instantiate the
batching theorem: with the default configuration the pass dispatches the
operations at positions 0, 1, 2 (first batch) and 10, 11 (second batch). -/
def sampleQueue : List (SyncOperation Nat) :=
  (List.range 12).map (fun i =>
    { id := toString i
      type := .READ
      endpoint := "/courses"
      data := none
      timestamp := i
      retries := 0
      maxRetries := 3
      priority := .medium })

theorem C8_batch_dispatch_witness :
    (0 < defaultSyncConfig.batchSize) ∧
    dispatchedInPass defaultSyncConfig sampleQueue
      = ((List.range sampleQueue.length).filter
          (fun i => decide (i % defaultSyncConfig.batchSize
            < defaultSyncConfig.maxConcurrentSyncs))).filterMap
          (fun i => sampleQueue[i]?) :=
  ⟨by decide, (C8_batch_dispatch defaultSyncConfig (by decide) sampleQueue).2.2⟩

theorem C4_backoff_delay_witness :
    ([sampleOp].find? (fun o => o.id == sampleOp.id) = some sampleOp
      ∧ sampleOp.retries < sampleOp.maxRetries) ∧
    (retryFail defaultSyncConfig [sampleOp] sampleOp.id).2
      = some (defaultSyncConfig.retryDelay * 2 ^ sampleOp.retries) :=
  ⟨⟨by decide, by decide⟩,
   (C4_backoff_delay defaultSyncConfig [sampleOp] sampleOp.id sampleOp
      (by decide) (by decide)).1⟩

/-! ## Conflict resolution

Conflicting payloads are arbitrary JS values; they are modelled by a JSON-like
value type.  JS strict equality (`===`, used by `indexOf` during array
deduplication) is modelled by structural equality, which is exact on
primitives (`null`, booleans, numbers, strings); for object/array elements JS
compares references, which a value model cannot represent, so the array-merge
claims are stated for arrays of primitive elements. -/

inductive Value where
  | vNull
  | vBool (b : Bool)
  | vNum (n : Int)
  | vStr (s : String)
  | vArr (elems : List Value)
  | vObj (fields : List (String × Value))

mutual

def Value.beq : Value → Value → Bool
  | .vNull, .vNull => true
  | .vBool a, .vBool b => a == b
  | .vNum a, .vNum b => a == b
  | .vStr a, .vStr b => a == b
  | .vArr xs, .vArr ys => Value.beqList xs ys
  | .vObj xs, .vObj ys => Value.beqFields xs ys
  | _, _ => false

def Value.beqList : List Value → List Value → Bool
  | [], [] => true
  | x :: xs, y :: ys => Value.beq x y && Value.beqList xs ys
  | _, _ => false

def Value.beqFields : List (String × Value) → List (String × Value) → Bool
  | [], [] => true
  | (k1, v1) :: xs, (k2, v2) :: ys => k1 == k2 && Value.beq v1 v2 && Value.beqFields xs ys
  | _, _ => false

end

mutual

theorem Value.eq_of_beq : ∀ {a b : Value}, Value.beq a b = true → a = b
  | .vNull, .vNull, _ => rfl
  | .vBool a, .vBool b, h => by
    simp only [Value.beq, beq_iff_eq] at h
    rw [h]
  | .vNum a, .vNum b, h => by
    simp only [Value.beq, beq_iff_eq] at h
    rw [h]
  | .vStr a, .vStr b, h => by
    simp only [Value.beq, beq_iff_eq] at h
    rw [h]
  | .vArr xs, .vArr ys, h => by
    simp only [Value.beq] at h
    rw [Value.eqList_of_beqList h]
  | .vObj xs, .vObj ys, h => by
    simp only [Value.beq] at h
    rw [Value.eqFields_of_beqFields h]

theorem Value.eqList_of_beqList : ∀ {xs ys : List Value}, Value.beqList xs ys = true → xs = ys
  | [], [], _ => rfl
  | x :: xs, y :: ys, h => by
    simp only [Value.beqList, Bool.and_eq_true] at h
    rw [Value.eq_of_beq h.1, Value.eqList_of_beqList h.2]

theorem Value.eqFields_of_beqFields :
    ∀ {xs ys : List (String × Value)}, Value.beqFields xs ys = true → xs = ys
  | (k1, v1) :: xs, (k2, v2) :: ys, h => by
    simp only [Value.beqFields, Bool.and_eq_true, beq_iff_eq] at h
    rw [h.1.1, Value.eq_of_beq h.1.2, Value.eqFields_of_beqFields h.2]
  | [], [], _ => rfl

end

mutual

theorem Value.beq_refl : ∀ (a : Value), Value.beq a a = true
  | .vNull => rfl
  | .vBool a => by simp [Value.beq]
  | .vNum a => by simp [Value.beq]
  | .vStr a => by simp [Value.beq]
  | .vArr xs => by
    simp only [Value.beq]
    exact Value.beqList_refl xs
  | .vObj xs => by
    simp only [Value.beq]
    exact Value.beqFields_refl xs

theorem Value.beqList_refl : ∀ (xs : List Value), Value.beqList xs xs = true
  | [] => rfl
  | x :: xs => by
    simp only [Value.beqList, Bool.and_eq_true]
    exact ⟨Value.beq_refl x, Value.beqList_refl xs⟩

theorem Value.beqFields_refl : ∀ (xs : List (String × Value)), Value.beqFields xs xs = true
  | [] => rfl
  | (k, v) :: xs => by
    simp only [Value.beqFields, Bool.and_eq_true]
    refine ⟨⟨?_, Value.beq_refl v⟩, Value.beqFields_refl xs⟩
    simp

end

instance : DecidableEq Value := fun a b =>
  decidable_of_iff (Value.beq a b = true) ⟨Value.eq_of_beq, fun h => h ▸ Value.beq_refl a⟩

/-- `typeof v === 'object'` holds in JS exactly for `null`, arrays and
plain objects. -/
def Value.isTypeofObject : Value → Bool
  | .vNull => true
  | .vArr _ => true
  | .vObj _ => true
  | _ => false

/-- A primitive value, on which JS `===` agrees with structural equality. -/
def Value.isPrimitive : Value → Bool
  | .vArr _ => false
  | .vObj _ => false
  | _ => true

/-- The own enumerable key/value pairs object spread copies out of a
`typeof === 'object'` operand: an object contributes its fields, an array its
elements under their stringified indices, `null` contributes nothing. -/
def Value.spreadFields : Value → List (String × Value)
  | .vObj fields => fields
  | .vArr elems => elems.enum.map (fun p => (toString p.1, p.2))
  | _ => []

/-- `{ ...server, ...local }`: the keys of `server` in order, each overridden
by `local`'s value on collision, followed by the keys only `local` has, in
`local`'s order. -/
def jsSpreadMerge (serverFields localFields : List (String × Value)) :
    List (String × Value) :=
  serverFields.map (fun kv => (kv.1, (List.lookup kv.1 localFields).getD kv.2))
    ++ localFields.filter (fun kv => (List.lookup kv.1 serverFields).isNone)

/-- `combined.filter((item, index) => combined.indexOf(item) === index)`:
keep each element at its first occurrence only. -/
def jsDedup (combined : List Value) : List Value :=
  (combined.enum.filter (fun p => combined.indexOf p.2 == p.1)).map Prod.snd

/-- `SyncService.mergeData`: union arrays removing duplicates; shallow-merge
`typeof 'object'` operands with the local spread last (local precedence);
prefer the server value for primitives. -/
def mergeData (localData serverData : Value) : Value :=
  match localData, serverData with
  | .vArr ls, .vArr ss => .vArr (jsDedup (ls ++ ss))
  | _, _ =>
    if localData.isTypeofObject && serverData.isTypeofObject then
      .vObj (jsSpreadMerge serverData.spreadFields localData.spreadFields)
    else serverData

/-- `ConflictResolutionStrategy`. -/
inductive ConflictResolutionStrategy where
  | serverWins
  | clientWins
  | merge
  | manual
deriving DecidableEq

/-- `SyncService.resolveConflicts` (the emitted `conflictDetected` event does
not affect the returned value and is not modelled): `serverWins` returns the
server data, `clientWins` the local data, `merge` delegates to `mergeData`,
`manual` returns both versions tagged. -/
def resolveConflicts (localData serverData : Value)
    (strategy : ConflictResolutionStrategy) : Value :=
  match strategy with
  | .serverWins => serverData
  | .clientWins => localData
  | .merge => mergeData localData serverData
  | .manual => .vObj [("local", localData), ("server", serverData)]

theorem jsDedup_mem (l : List Value) (a : Value) : a ∈ jsDedup l ↔ a ∈ l := by
  constructor
  · intro h
    obtain ⟨p, hp, rfl⟩ := List.mem_map.mp h
    exact List.getElem?_mem (List.mem_enum_iff_getElem?.mp (List.mem_filter.mp hp).1)
  · intro h
    have hlt : List.indexOf a l < l.length := List.indexOf_lt_length.mpr h
    apply List.mem_map.mpr
    refine ⟨(List.indexOf a l, a), ?_, rfl⟩
    apply List.mem_filter.mpr
    refine ⟨?_, by simp⟩
    apply List.mem_enum_iff_getElem?.mpr
    rw [List.getElem?_eq_getElem hlt, List.getElem_indexOf]

theorem jsDedup_nodup (l : List Value) : (jsDedup l).Nodup := by
  have henum : l.enum.Nodup := by
    apply List.Nodup.of_map Prod.fst
    rw [List.enum_map_fst]
    exact List.nodup_range _
  apply List.Nodup.map_on ?_ (henum.filter (fun p => l.indexOf p.2 == p.1))
  intro p hp q hq hsnd
  have hp1 : l.indexOf p.2 = p.1 := by
    simpa using (List.mem_filter.mp hp).2
  have hq1 : l.indexOf q.2 = q.1 := by
    simpa using (List.mem_filter.mp hq).2
  have hfst : p.1 = q.1 := by rw [← hp1, ← hq1, hsnd]
  exact Prod.ext hfst hsnd

theorem lookup_append_or (k : String) (l1 l2 : List (String × Value)) :
    List.lookup k (l1 ++ l2) = (List.lookup k l1).or (List.lookup k l2) := by
  induction l1 with
  | nil => simp [List.lookup]
  | cons kv rest ih =>
    obtain ⟨k', v'⟩ := kv
    by_cases h : k = k'
    · subst h
      simp [List.lookup]
    · have hb : (k == k') = false := by simp [h]
      simp [List.lookup, hb, ih]

theorem lookup_spread_server (serverFields localFields : List (String × Value))
    (k : String) :
    List.lookup k (serverFields.map
        (fun kv => (kv.1, (List.lookup kv.1 localFields).getD kv.2)))
      = Option.map (fun v => (List.lookup k localFields).getD v)
          (List.lookup k serverFields) := by
  induction serverFields with
  | nil => simp [List.lookup]
  | cons kv rest ih =>
    obtain ⟨k', v'⟩ := kv
    by_cases h : k = k'
    · subst h
      simp [List.lookup]
    · have hb : (k == k') = false := by simp [h]
      simp [List.lookup, hb, ih]

theorem lookup_spread_local (serverFields localFields : List (String × Value))
    (k : String) (h : List.lookup k serverFields = none) :
    List.lookup k (localFields.filter
        (fun kv => (List.lookup kv.1 serverFields).isNone))
      = List.lookup k localFields := by
  induction localFields with
  | nil => rfl
  | cons kv rest ih =>
    obtain ⟨k', v'⟩ := kv
    by_cases hk : k = k'
    · subst hk
      have hc : (List.lookup k serverFields).isNone = true := by
        rw [h]
        rfl
      simp [List.filter_cons, hc, List.lookup]
    · have hb : (k == k') = false := by simp [hk]
      rw [List.filter_cons]
      cases hc : (List.lookup k' serverFields).isNone <;>
        simp [List.lookup, hb, ih, hc]

theorem jsSpreadMerge_lookup (serverFields localFields : List (String × Value))
    (k : String) :
    List.lookup k (jsSpreadMerge serverFields localFields)
      = (List.lookup k localFields).or (List.lookup k serverFields) := by
  rw [jsSpreadMerge, lookup_append_or, lookup_spread_server]
  cases hs : List.lookup k serverFields with
  | none =>
    rw [lookup_spread_local serverFields localFields k hs]
    simp
  | some v =>
    cases hl : List.lookup k localFields <;> simp [hl]

/-- C5: `resolveConflicts` returns the server data under `serverWins` and the
local data under `clientWins`; under `merge`, two arrays (of primitive
elements, where JS `===` is value equality) give the duplicate-free union,
keeping first occurrences — in particular `[1,2]` merged with `[2,3]` gives
`[1,2,3]` — and two plain objects give the shallow merge in which every
local key overrides the server's, as witnessed by key lookup — in particular
local `{a:1}` merged with server `{a:2}` gives `{a:1}`. -/
theorem C5_conflict_strategies :
    (∀ localData serverData : Value,
      resolveConflicts localData serverData .serverWins = serverData)
  ∧ (∀ localData serverData : Value,
      resolveConflicts localData serverData .clientWins = localData)
  ∧ (∀ xs ys : List Value, (∀ v ∈ xs ++ ys, v.isPrimitive = true) →
      resolveConflicts (.vArr xs) (.vArr ys) .merge = .vArr (jsDedup (xs ++ ys))
      ∧ (jsDedup (xs ++ ys)).Nodup
      ∧ ∀ v : Value, v ∈ jsDedup (xs ++ ys) ↔ v ∈ xs ∨ v ∈ ys)
  ∧ resolveConflicts (.vArr [.vNum 1, .vNum 2]) (.vArr [.vNum 2, .vNum 3]) .merge
      = .vArr [.vNum 1, .vNum 2, .vNum 3]
  ∧ (∀ localFields serverFields : List (String × Value),
      resolveConflicts (.vObj localFields) (.vObj serverFields) .merge
        = .vObj (jsSpreadMerge serverFields localFields)
      ∧ ∀ k : String, List.lookup k (jsSpreadMerge serverFields localFields)
          = (List.lookup k localFields).or (List.lookup k serverFields))
  ∧ resolveConflicts (.vObj [("a", .vNum 1)]) (.vObj [("a", .vNum 2)]) .merge
      = .vObj [("a", .vNum 1)] := by
  refine ⟨fun _ _ => rfl, fun _ _ => rfl, ?_, by decide, ?_, by decide⟩
  · intro xs ys _
    exact ⟨rfl, jsDedup_nodup _, fun v => by
      rw [jsDedup_mem]
      exact List.mem_append⟩
  · intro localFields serverFields
    exact ⟨rfl, jsSpreadMerge_lookup serverFields localFields⟩

theorem C5_conflict_strategies_witness :
    (∀ v ∈ ([Value.vNum 1, Value.vNum 2] ++ [Value.vNum 2, Value.vNum 3]),
      v.isPrimitive = true) ∧
    (resolveConflicts (.vArr [.vNum 1, .vNum 2]) (.vArr [.vNum 2, .vNum 3]) .merge
        = .vArr (jsDedup ([Value.vNum 1, Value.vNum 2] ++ [Value.vNum 2, Value.vNum 3]))
      ∧ (jsDedup ([Value.vNum 1, Value.vNum 2] ++ [Value.vNum 2, Value.vNum 3])).Nodup
      ∧ ∀ v : Value,
          v ∈ jsDedup ([Value.vNum 1, Value.vNum 2] ++ [Value.vNum 2, Value.vNum 3])
            ↔ v ∈ [Value.vNum 1, Value.vNum 2] ∨ v ∈ [Value.vNum 2, Value.vNum 3]) :=
  ⟨by decide,
   C5_conflict_strategies.2.2.1 [Value.vNum 1, Value.vNum 2]
     [Value.vNum 2, Value.vNum 3] (by decide)⟩

/-! ## Record store: `remove` and `clearAll`

`OfflineStorage.remove` / `OfflineStorage.clearAll` call the underlying
key-value store (`AsyncStorage.removeItem` / `AsyncStorage.clear`), and in
their catch blocks log the error and then `throw error` again.  The
underlying call's outcome is the explicit `Except` argument. -/

namespace OfflineStorage

/-- `OfflineStorage.remove`: on success return; on failure log and rethrow. -/
def remove (removeItemResult : Except String Unit) : Except String Unit :=
  match removeItemResult with
  | .ok _ => .ok ()
  | .error e => .error e

/-- `OfflineStorage.clearAll`: on success return; on failure log and rethrow. -/
def clearAll (clearResult : Except String Unit) : Except String Unit :=
  match clearResult with
  | .ok _ => .ok ()
  | .error e => .error e

end OfflineStorage

/-- C6 counterexample: when the underlying store rejects, `remove` and
`clearAll` do **not** complete normally — the rejection is rethrown to the
caller, so the call does not return `ok`. -/
theorem C6_remove_throws_counterexample :
    (OfflineStorage.remove (Except.error "disk full")).isOk = false
  ∧ (OfflineStorage.clearAll (Except.error "quota exceeded")).isOk = false :=
  ⟨rfl, rfl⟩

/-- C6 amended: `remove(key)` and `clearAll()` propagate the underlying
store's outcome unchanged: they succeed exactly when the store succeeds, and
when the store rejects they log the failure and rethrow the same error
(unlike `removeFromSyncQueue`/`incrementRetryCount`, whose catch blocks
swallow the failure). -/
theorem C6_remove_clearAll_propagate :
    (∀ r : Except String Unit, OfflineStorage.remove r = r)
  ∧ (∀ r : Except String Unit, OfflineStorage.clearAll r = r) := by
  constructor <;> intro r <;> cases r <;> rfl

/-! ## Offline data cache (`useOfflineData`)

The cache state is the per-data-type dictionary `Record<string,
OfflineDataItem<T>>`, persisted as one blob; it is modelled as an
insertion-ordered association list, matching the key order that
`Object.keys`/`Object.values` enumerate. -/

/-- `DataSyncStatus = 'synced' | 'pending' | 'conflict' | 'error'`. -/
inductive DataSyncStatus where
  | synced
  | pending
  | conflict
  | error
deriving DecidableEq, Repr

/-- `OfflineDataItem<T>`. -/
structure OfflineDataItem (T : Type) where
  id : String
  data : T
  status : DataSyncStatus
  lastModified : Nat
  syncAttempts : Nat
  errorMessage : Option String
deriving DecidableEq, Repr

/-- The persisted dictionary of one data type, in key insertion order. -/
abbrev DataDict (T : Type) : Type := List (String × OfflineDataItem T)

/-- `{ ...data, [id]: item }`: replace the value at an existing key in place,
or append a new key at the end. -/
def dictInsert {T : Type} : DataDict T → String → OfflineDataItem T → DataDict T
  | [], id, item => [(id, item)]
  | (k, v) :: rest, id, item =>
    if k = id then (k, item) :: rest else (k, v) :: dictInsert rest id item

/-- `getItemsByStatus`: `Object.values(data).filter(i => i.status === status).map(i => i.data)`. -/
def getItemsByStatus {T : Type} (dict : DataDict T) (status : DataSyncStatus) :
    List T :=
  ((dict.map Prod.snd).filter (fun item => item.status == status)).map
    (fun item => item.data)

/-- The ids on which `syncAll` invokes `syncItem`:
`pendingItems.map((_, index) => Object.keys(data)[index])` — it indexes the
full key array by the *position inside the filtered pending list*. -/
def syncAllTargets {T : Type} (dict : DataDict T) : List (Option String) :=
  (List.range (getItemsByStatus dict .pending).length).map
    (fun index => (dict.map Prod.fst)[index]?)

/-- The ids the spec says `syncAll` must sync: the keys of the items whose
status is `pending`, in dictionary order. -/
def pendingIds {T : Type} (dict : DataDict T) : List String :=
  (dict.filter (fun kv => kv.2.status == .pending)).map Prod.fst

/-- A synced item under key "a" (first key of the dictionary). -/
def bugItemA : OfflineDataItem Nat :=
  { id := "a", data := 0, status := .synced, lastModified := 0,
    syncAttempts := 0, errorMessage := none }

/-- A pending item under key "b" (second key of the dictionary). -/
def bugItemB : OfflineDataItem Nat :=
  { id := "b", data := 1, status := .pending, lastModified := 0,
    syncAttempts := 0, errorMessage := none }

/-- A dictionary with one synced item ("a") followed by one pending item ("b"). -/
def bugDict : DataDict Nat := [("a", bugItemA), ("b", bugItemB)]

/-- C2: `syncAll` computes its target ids by indexing `Object.keys(data)`
with positions taken from the *filtered* pending list, so on a dictionary
whose first key holds a synced item and whose second key holds the only
pending item, it invokes `syncItem` once — on the synced item "a" — and
never on the pending item "b", contradicting both the spec and the
function's own intent ("sync all pending items"). -/
theorem C2_syncAll_targets_bug :
    syncAllTargets bugDict = [some "a"]
  ∧ pendingIds bugDict = ["b"]
  ∧ syncAllTargets bugDict ≠ (pendingIds bugDict).map some := by
  refine ⟨by decide, by decide, by decide⟩

/-- A thrown JS value: either an `Error` instance carrying its `message`, or
any other value. -/
inductive JSError where
  | errObj (message : String)
  | nonError
deriving DecidableEq, Repr

/-- `error instanceof Error ? error.message : 'Unknown error'`. -/
def jsErrorMessage : JSError → String
  | .errObj m => m
  | .nonError => "Unknown error"

/-- The item `addItem` creates:
`{ id, data, status: 'pending', lastModified: Date.now(), syncAttempts: 0 }`. -/
def mkAddItem {T : Type} (id : String) (itemData : T) (now : Nat) :
    OfflineDataItem T :=
  { id := id
    data := itemData
    status := .pending
    lastModified := now
    syncAttempts := 0
    errorMessage := none }

/-- `addItem`: store the new pending item in the dictionary and, only when
online, enqueue a CREATE operation for `/dataType/id` at high priority. -/
def addItem {T : Type} (dict : DataDict T) (queue : List (SyncOperation T))
    (id : String) (itemData : T) (dataType : String) (now : Nat)
    (newOpId : String) (isOnline : Bool) :
    DataDict T × List (SyncOperation T) :=
  let updatedDict := dictInsert dict id (mkAddItem id itemData now)
  if isOnline then
    (updatedDict,
     addToSyncQueue queue
       { type := .CREATE
         endpoint := "/" ++ dataType ++ "/" ++ id
         data := some itemData
         priority := .high } newOpId now)
  else
    (updatedDict, queue)

/-- `markAsSynced`: a no-op when the id is absent; otherwise persist the item
with `status: 'synced'`, `syncAttempts: 0` and `errorMessage: undefined`. -/
def markAsSynced {T : Type} (dict : DataDict T) (id : String) : DataDict T :=
  match List.lookup id dict with
  | none => dict
  | some item =>
    dictInsert dict id
      { item with status := .synced, syncAttempts := 0, errorMessage := none }

/-- Outcome of one `syncItem(id)` call: the persisted dictionary and sync
queue afterwards, and the error the call rethrows, if any. -/
structure SyncItemResult (T : Type) where
  dict : DataDict T
  queue : List (SyncOperation T)
  thrown : Option JSError
deriving DecidableEq

/-- `syncItem(id)`: a silent no-op when the id is absent.  Otherwise enqueue
an UPDATE for the item at high priority; on success persist the item as
`pending` with `syncAttempts + 1`; when the enqueue throws (`enqueueErr`),
the queue is left unpersisted, the item is persisted as `error` with the
thrown error's message (`'Unknown error'` for a non-`Error` throw) and
`syncAttempts + 1`, and the error is rethrown. -/
def syncItem {T : Type} (dict : DataDict T) (queue : List (SyncOperation T))
    (id dataType : String) (now : Nat) (newOpId : String)
    (enqueueErr : Option JSError) : SyncItemResult T :=
  match List.lookup id dict with
  | none => { dict := dict, queue := queue, thrown := none }
  | some item =>
    match enqueueErr with
    | none =>
      { dict := dictInsert dict id
          { item with status := .pending, syncAttempts := item.syncAttempts + 1 }
        queue := addToSyncQueue queue
          { type := .UPDATE
            endpoint := "/" ++ dataType ++ "/" ++ id
            data := some item.data
            priority := .high } newOpId now
        thrown := none }
    | some e =>
      { dict := dictInsert dict id
          { item with status := .error
                      errorMessage := some (jsErrorMessage e)
                      syncAttempts := item.syncAttempts + 1 }
        queue := queue
        thrown := some e }

/-- `resolveConflict(id, resolvedData)`: a no-op when the id is absent;
otherwise persist the item with the resolved data, reset to `pending` with
`syncAttempts: 0` and no error message, for re-sync. -/
def resolveConflict {T : Type} (dict : DataDict T) (id : String)
    (resolvedData : T) (now : Nat) : DataDict T :=
  match List.lookup id dict with
  | none => dict
  | some item =>
    dictInsert dict id
      { item with data := resolvedData
                  status := .pending
                  lastModified := now
                  syncAttempts := 0
                  errorMessage := none }

theorem lookup_dictInsert {T : Type} (dict : DataDict T) (id : String)
    (item : OfflineDataItem T) :
    List.lookup id (dictInsert dict id item) = some item := by
  induction dict with
  | nil => simp [dictInsert, List.lookup]
  | cons kv rest ih =>
    obtain ⟨k, v⟩ := kv
    by_cases h : k = id
    · subst h
      simp [dictInsert, List.lookup]
    · have hb : (id == k) = false := by
        simp
        exact fun hh => h hh.symm
      simp [dictInsert, h, List.lookup, hb, ih]

/-- A pending item under key "x", used to instantiate the cache theorems. -/
def sampleItem : OfflineDataItem Nat :=
  { id := "x", data := 5, status := .pending, lastModified := 0,
    syncAttempts := 0, errorMessage := none }

/-- A dictionary holding only `sampleItem` under key "x". -/
def sampleDict : DataDict Nat := [("x", sampleItem)]

/-- C9 counterexample: a `syncItem` whose enqueue fails with an `Error`
whose own `message` is the empty string leaves the item with status
`'error'` but with `errorMessage === ""` — an *empty* error message, because
the code copies `error.message` verbatim.  (`"".length = 0` spells out the
emptiness.) -/
theorem C9_empty_error_message_counterexample :
    List.lookup "x"
        (syncItem sampleDict ([] : List (SyncOperation Nat)) "x" "courses" 0
          "op_1" (some (.errObj ""))).dict
      = some { id := "x", data := 5, status := .error, lastModified := 0,
               syncAttempts := 1, errorMessage := some "" }
  ∧ ("" : String).length = 0 := by
  refine ⟨by decide, rfl⟩

/-- C9 amended: `addItem` creates its item with status `'pending'` and
`syncAttempts = 0`; `markAsSynced` on an existing item persists it with
status `'synced'`, `syncAttempts = 0` and the error message cleared; a
`syncItem` whose enqueue fails persists the item with status `'error'` and
an `errorMessage` equal to the thrown `Error`'s `message` (`'Unknown error'`
for a non-`Error` throw) — non-empty whenever that message is non-empty,
though an `Error` with an empty message yields an empty `errorMessage`. -/
theorem C9_status_transitions {T : Type} :
    (∀ (id : String) (d : T) (now : Nat),
      (mkAddItem id d now).status = .pending ∧ (mkAddItem id d now).syncAttempts = 0)
  ∧ (∀ (dict : DataDict T) (id : String) (item : OfflineDataItem T),
      List.lookup id dict = some item →
      List.lookup id (markAsSynced dict id)
        = some { item with
                   status := .synced
                   syncAttempts := 0
                   errorMessage := none })
  ∧ (∀ (dict : DataDict T) (queue : List (SyncOperation T)) (id dataType : String)
      (now : Nat) (newOpId : String) (e : JSError) (item : OfflineDataItem T),
      List.lookup id dict = some item →
      List.lookup id (syncItem dict queue id dataType now newOpId (some e)).dict
        = some { item with
                   status := .error
                   errorMessage := some (jsErrorMessage e)
                   syncAttempts := item.syncAttempts + 1 })
  ∧ jsErrorMessage .nonError = "Unknown error"
  ∧ (∀ m : String, m ≠ "" → jsErrorMessage (.errObj m) ≠ "") := by
  refine ⟨fun _ _ _ => ⟨rfl, rfl⟩, ?_, ?_, rfl, fun m hm => hm⟩
  · intro dict id item hlook
    rw [markAsSynced, hlook]
    exact lookup_dictInsert dict id _
  · intro dict queue id dataType now newOpId e item hlook
    rw [syncItem, hlook]
    exact lookup_dictInsert dict id _

theorem C9_status_transitions_witness :
    (List.lookup "x" sampleDict = some sampleItem) ∧
    List.lookup "x" (markAsSynced sampleDict "x")
      = some { sampleItem with
                 status := .synced
                 syncAttempts := 0
                 errorMessage := none } ∧
    List.lookup "x"
        (syncItem sampleDict ([] : List (SyncOperation Nat)) "x" "courses" 0
          "op_1" (some .nonError)).dict
      = some { sampleItem with
                 status := .error
                 errorMessage := some (jsErrorMessage .nonError)
                 syncAttempts := sampleItem.syncAttempts + 1 } :=
  ⟨by decide,
   C9_status_transitions.2.1 sampleDict "x" sampleItem (by decide),
   C9_status_transitions.2.2.1 sampleDict [] "x" "courses" 0 "op_1" .nonError
     sampleItem (by decide)⟩

/-- C10: for an id that is absent from the dictionary, `markAsSynced`,
`syncItem` and `resolveConflict` all return normally (nothing is thrown),
persist nothing and enqueue nothing: the dictionary and the sync queue are
returned exactly as they were. -/
theorem C10_missing_id_noop {T : Type} :
    (∀ (dict : DataDict T) (id : String),
      List.lookup id dict = none → markAsSynced dict id = dict)
  ∧ (∀ (dict : DataDict T) (queue : List (SyncOperation T)) (id dataType : String)
      (now : Nat) (newOpId : String) (enqueueErr : Option JSError),
      List.lookup id dict = none →
      syncItem dict queue id dataType now newOpId enqueueErr
        = { dict := dict, queue := queue, thrown := none })
  ∧ (∀ (dict : DataDict T) (id : String) (resolvedData : T) (now : Nat),
      List.lookup id dict = none →
      resolveConflict dict id resolvedData now = dict) := by
  refine ⟨?_, ?_, ?_⟩
  · intro dict id hlook
    rw [markAsSynced, hlook]
  · intro dict queue id dataType now newOpId enqueueErr hlook
    rw [syncItem, hlook]
  · intro dict id resolvedData now hlook
    rw [resolveConflict, hlook]

/-! ## Sync driver: re-entrancy of `syncPendingOperations`

The event-loop interleaving of two `manualSync()` calls is modelled as a
small-step machine.  Each call runs `syncPendingOperations`; a task advances
from one suspension point (`await`) to the next per step:

* `start`: the synchronous prefix — the `isSyncing` guard check; when the
  flag is set the call returns at once (`done true`, a silent no-op),
  otherwise it suspends inside `await this.checkConnectivity()`;
* `atConnectivity`: the connectivity result arrives (online in this
  scenario); the task sets `isSyncing := true` and suspends at
  `await offlineStorage.getSyncQueue()`;
* `atQueueLoad`: the queue snapshot arrives; with the operation still
  persisted the task dispatches the remote call (counted in `remoteCalls`)
  and suspends awaiting it; with an empty queue the pass ends (the `finally`
  clears the flag);
* `atRemote`: the remote call resolves; the operation is removed from the
  queue, the pass completes, and the `finally` clears the shared flag.

The persisted queue holds one operation (`opPresent`); both tasks share
`isSyncing`, the queue and the remote-call counter, exactly as the singleton
service does. -/

inductive PassPhase where
  | start
  | atConnectivity
  | atQueueLoad
  | atRemote
  | done (noop : Bool)
deriving DecidableEq, Repr

/-- The shared driver state plus the continuation point of each of the two
`syncPendingOperations` calls. -/
structure DriverState where
  isSyncing : Bool
  opPresent : Bool
  remoteCalls : Nat
  phase0 : PassPhase
  phase1 : PassPhase
deriving DecidableEq, Repr

/-- Resume one call from its suspension point: returns its next phase and
the updated shared `(isSyncing, opPresent, remoteCalls)`. -/
def passStep (ph : PassPhase) (isSyncing opPresent : Bool) (remoteCalls : Nat) :
    PassPhase × Bool × Bool × Nat :=
  match ph with
  | .start =>
    if isSyncing then (.done true, isSyncing, opPresent, remoteCalls)
    else (.atConnectivity, isSyncing, opPresent, remoteCalls)
  | .atConnectivity => (.atQueueLoad, true, opPresent, remoteCalls)
  | .atQueueLoad =>
    if opPresent then (.atRemote, isSyncing, opPresent, remoteCalls + 1)
    else (.done false, false, opPresent, remoteCalls)
  | .atRemote => (.done false, false, false, remoteCalls)
  | .done noop => (.done noop, isSyncing, opPresent, remoteCalls)

/-- Run one scheduler step: resume task 1 when `task` is `true`, task 0
otherwise. -/
def stepDriver (s : DriverState) (task : Bool) : DriverState :=
  if task then
    let r := passStep s.phase1 s.isSyncing s.opPresent s.remoteCalls
    { isSyncing := r.2.1, opPresent := r.2.2.1, remoteCalls := r.2.2.2,
      phase0 := s.phase0, phase1 := r.1 }
  else
    let r := passStep s.phase0 s.isSyncing s.opPresent s.remoteCalls
    { isSyncing := r.2.1, opPresent := r.2.2.1, remoteCalls := r.2.2.2,
      phase0 := r.1, phase1 := s.phase1 }

/-- Run a whole interleaving. -/
def runDriver (s : DriverState) (sched : List Bool) : DriverState :=
  sched.foldl stepDriver s

/-- Both calls about to enter the guard; one operation queued; flag clear. -/
def initDriver : DriverState :=
  { isSyncing := false, opPresent := true, remoteCalls := 0,
    phase0 := .start, phase1 := .start }

/-- The states an uninterrupted first call walks through. -/
def t0State : Nat → DriverState
  | 0 => initDriver
  | 1 => { isSyncing := false, opPresent := true, remoteCalls := 0,
           phase0 := .atConnectivity, phase1 := .start }
  | 2 => { isSyncing := true, opPresent := true, remoteCalls := 0,
           phase0 := .atQueueLoad, phase1 := .start }
  | 3 => { isSyncing := true, opPresent := true, remoteCalls := 1,
           phase0 := .atRemote, phase1 := .start }
  | _ => { isSyncing := false, opPresent := false, remoteCalls := 1,
           phase0 := .done false, phase1 := .start }

theorem t0State_step (k : Nat) :
    stepDriver (t0State k) false = t0State (k + 1) := by
  match k with
  | 0 => rfl
  | 1 => rfl
  | 2 => rfl
  | 3 => rfl
  | n + 4 => rfl

theorem allFalse_run (pre : List Bool) (h : ∀ x ∈ pre, x = false) :
    runDriver initDriver pre = t0State pre.length := by
  induction pre using List.reverseRecOn with
  | nil => rfl
  | append_singleton xs x ih =>
    have hx : x = false := h x (by simp)
    have hxs : ∀ y ∈ xs, y = false := fun y hy => h y (by simp [hy])
    show (xs ++ [x]).foldl stepDriver initDriver = _
    rw [List.foldl_append, hx]
    simp only [List.foldl_cons, List.foldl_nil]
    have hih : xs.foldl stepDriver initDriver = t0State xs.length := ih hxs
    rw [hih, t0State_step]
    simp

theorem t0State_atRemote {n : Nat} (h : (t0State n).phase0 = .atRemote) :
    t0State n = t0State 3 := by
  match n with
  | 0 => simp [t0State, initDriver] at h
  | 1 => simp [t0State] at h
  | 2 => simp [t0State] at h
  | 3 => rfl
  | m + 4 => simp [t0State] at h

/-- C7 counterexample: two "rapid" `manualSync()` calls, the second entering
while the first is still suspended inside its connectivity check — before the
first has set `isSyncing`.  Both calls pass the guard, both load the
still-unchanged queue, and both dispatch the single queued operation: the run
makes **two** remote calls and ends with **two** passes simultaneously
awaiting unresolved remote calls, refuting "exactly one set of remote calls"
and "at most one sync pass is ever in flight". -/
theorem C7_reentrancy_counterexample :
    (runDriver initDriver [false, true, false, false, true, true]).remoteCalls = 2
  ∧ (runDriver initDriver [false, true, false, false, true, true]).phase0
      = .atRemote
  ∧ (runDriver initDriver [false, true, false, false, true, true]).phase1
      = .atRemote := by
  refine ⟨by decide, by decide, by decide⟩

/-- C7 amended: a call entering `syncPendingOperations` while `isSyncing` is
`true` returns immediately as a silent no-op, leaving all shared state
untouched; `isSyncing` is set only after a pass's awaited connectivity check
resolves, so for two calls where the second enters *after* the first has
dispatched its remote call (the call is still unresolved), the second is a
silent no-op and exactly one set of remote calls is made.  (Two calls whose
guard checks both precede the flag assignment can, however, both proceed —
see the counterexample.) -/
theorem C7_reentrancy_guard :
    (∀ s : DriverState, s.isSyncing = true → s.phase1 = .start →
      stepDriver s true = { s with phase1 := .done true })
  ∧ (∀ pre post : List Bool,
      (∀ x ∈ pre, x = false) → (∀ x ∈ post, x = false) →
      (runDriver initDriver pre).phase0 = .atRemote →
      (runDriver initDriver (pre ++ true :: post)).remoteCalls = 1
      ∧ (runDriver initDriver (pre ++ true :: post)).phase1 = .done true) := by
  constructor
  · intro s h1 h2
    cases s
    simp_all [stepDriver, passStep]
  · intro pre post hpre hpost hphase
    have hpre_run : runDriver initDriver pre = t0State pre.length :=
      allFalse_run pre hpre
    rw [hpre_run] at hphase
    have h3 : t0State pre.length = t0State 3 := t0State_atRemote hphase
    have hsplit : runDriver initDriver (pre ++ true :: post)
        = runDriver (stepDriver (runDriver initDriver pre) true) post := by
      show (pre ++ true :: post).foldl stepDriver initDriver = _
      rw [List.foldl_append]
      rfl
    have hguard : stepDriver (t0State 3) true
        = { isSyncing := true, opPresent := true, remoteCalls := 1,
            phase0 := .atRemote, phase1 := .done true } := by decide
    rw [hsplit, hpre_run, h3, hguard]
    have hfrom : ∀ (post : List Bool), (∀ x ∈ post, x = false) →
        runDriver { isSyncing := true, opPresent := true, remoteCalls := 1,
                    phase0 := .atRemote, phase1 := .done true } post
          = { isSyncing := true, opPresent := true, remoteCalls := 1,
              phase0 := .atRemote, phase1 := .done true }
        ∨ runDriver { isSyncing := true, opPresent := true, remoteCalls := 1,
                      phase0 := .atRemote, phase1 := .done true } post
          = { isSyncing := false, opPresent := false, remoteCalls := 1,
              phase0 := .done false, phase1 := .done true } := by
      intro post hpost
      induction post using List.reverseRecOn with
      | nil => exact Or.inl rfl
      | append_singleton xs x ihx =>
        have hx : x = false := hpost x (by simp)
        have hxs : ∀ y ∈ xs, y = false := fun y hy => hpost y (by simp [hy])
        have hres := ihx hxs
        show (xs ++ [x]).foldl stepDriver _ = _ ∨ (xs ++ [x]).foldl stepDriver _ = _
        rw [List.foldl_append, hx]
        simp only [List.foldl_cons, List.foldl_nil]
        rcases hres with hres | hres <;>
          rw [show xs.foldl stepDriver _ = _ from hres] <;>
          exact Or.inr (by decide)
    rcases hfrom post hpost with hres | hres <;> rw [hres] <;> exact ⟨rfl, rfl⟩

/-- The first pass awaiting its remote call with the flag set, the second
call about to run its guard check. -/
def inFlightState : DriverState :=
  { isSyncing := true, opPresent := true, remoteCalls := 1,
    phase0 := .atRemote, phase1 := .start }

theorem C7_reentrancy_guard_witness :
    (inFlightState.isSyncing = true
      ∧ stepDriver inFlightState true = { inFlightState with phase1 := .done true })
  ∧ ((runDriver initDriver ([false, false, false] ++ true :: [false])).remoteCalls
        = 1
     ∧ (runDriver initDriver ([false, false, false] ++ true :: [false])).phase1
        = .done true) :=
  ⟨⟨rfl, C7_reentrancy_guard.1 inFlightState rfl rfl⟩,
   C7_reentrancy_guard.2 [false, false, false] [false]
     (by decide) (by decide) (by decide)⟩

theorem C10_missing_id_noop_witness :
    (List.lookup "zzz" sampleDict = none) ∧
    markAsSynced sampleDict "zzz" = sampleDict ∧
    syncItem sampleDict ([] : List (SyncOperation Nat)) "zzz" "courses" 0 "op_1"
        (some .nonError)
      = { dict := sampleDict, queue := [], thrown := none } ∧
    resolveConflict sampleDict "zzz" 9 0 = sampleDict :=
  ⟨by decide,
   C10_missing_id_noop.1 sampleDict "zzz" (by decide),
   C10_missing_id_noop.2.1 sampleDict [] "zzz" "courses" 0 "op_1"
     (some .nonError) (by decide),
   C10_missing_id_noop.2.2 sampleDict "zzz" 9 0 (by decide)⟩

end TeachLink
